import Mathlib

/-!
Shallow embedding of `src/dashboard.py` (Titanic data-exploration dashboard).

A pandas dataframe is modelled as a `List` of row structures.  Columns that
can hold NaN in the source (`Age`, `Fare`, `Embarked`, and the derived
`Title` / `AgeGroup`) are modelled as `Option`-valued fields; numeric data
are rationals.  Each definition mirrors one pandas expression of the source.
-/

namespace Dashboard

/-- A raw row of `train.csv` as read by `pd.read_csv` (only the columns the
dashboard consumes).  `Age`, `Fare` and `Embarked` may be missing. -/
structure RawRow where
  survived : ℕ
  pclass : ℕ
  name : String
  sex : String
  age : Option ℚ
  fare : Option ℚ
  embarked : Option String
  deriving DecidableEq, Repr

/-- A prepared row after `load_data`: columns stay nullable (a dataframe
column can always hold NaN); the preparation invariants are theorems. -/
structure PRow where
  survived : ℕ
  pclass : ℕ
  name : String
  sex : String
  age : Option ℚ
  fare : Option ℚ
  embarked : Option String
  title : Option String
  ageGroup : Option String
  deriving DecidableEq, Repr

/-- The sidebar filter state: `classes`/`sexes`/`embark_ports` multiselects
and the `age_range` slider of `dashboard.py` lines 44-68. -/
structure Criteria where
  classes : List ℕ
  sexes : List String
  minAge : ℚ
  maxAge : ℚ
  ports : List String

/-- One row's conjunction of the five boolean masks of lines 72-76:
`isin(classes) & isin(sexes) & Age >= lo & Age <= hi & isin(ports)`.
A NaN `Age` compares false, and `isin` is false on NaN, as in pandas. -/
def rowMatches (c : Criteria) (r : PRow) : Bool :=
  c.classes.contains r.pclass &&
  c.sexes.contains r.sex &&
  (match r.age with
   | some a => decide (c.minAge ≤ a) && decide (a ≤ c.maxAge)
   | none => false) &&
  (match r.embarked with
   | some e => c.ports.contains e
   | none => false)

/-- `filtered_df = df[mask]` (lines 71-77): boolean-mask row selection. -/
def applyFilters (t : List PRow) (c : Criteria) : List PRow :=
  t.filter (rowMatches c)

/-- Non-missing entries of a nullable column, as `Series.dropna` would
produce them (order preserved). -/
def nonMissing {α : Type} (l : List (Option α)) : List α :=
  l.filterMap id

/-- `Series.fillna(v)`: missing entries become `v`; if `v` is itself missing
(`fillna(NaN)`, which pandas leaves in place), the entry stays missing. -/
def fillOpt {α : Type} (v : Option α) (x : Option α) : Option α :=
  match x with
  | some a => some a
  | none => v

/-- `Series.median()` (NaN-skipping callers pass the non-missing list):
sort, take the middle element for odd length, the average of the two middle
elements for even length; `none` on an empty list. -/
def median (l : List ℚ) : Option ℚ :=
  if l.length = 0 then none
  else
    let s := l.mergeSort (fun a b => decide (a ≤ b))
    if l.length % 2 = 1 then some (s.getD (l.length / 2) 0)
    else some ((s.getD (l.length / 2 - 1) 0 + s.getD (l.length / 2) 0) / 2)

/-- Lexicographic strict order on character lists by code point, as Python
compares strings. -/
def pyCharListLt : List Char → List Char → Bool
  | [], [] => false
  | [], _ :: _ => true
  | _ :: _, [] => false
  | a :: as, b :: bs =>
    if a < b then true else if b < a then false else pyCharListLt as bs

/-- Python's `<` on strings (the order of the sort inside `Series.mode`). -/
def pyStrLt (a b : String) : Bool := pyCharListLt a.data b.data

/-- Choice step of `Series.mode()[0]`: among candidates, prefer the higher
count; on a count tie, the smaller string (pandas returns the tied modes
sorted ascending, and `[0]` picks the first). -/
def pickMode (cnt : String → ℕ) : List String → Option String
  | [] => none
  | v :: vs =>
    match pickMode cnt vs with
    | none => some v
    | some b =>
      if cnt b < cnt v ∨ (cnt v = cnt b ∧ pyStrLt v b) then some v else some b

/-- `Series.mode()[0]` over the non-missing values: the most frequent value,
ties broken by the smallest value in sort order; `none` when empty. -/
def modeStr (l : List String) : Option String :=
  pickMode (fun v => l.count v) l.dedup

/-- `pd.cut(x, bins, labels)` with `right=True`: assign `x` the label of the
first interval `(lo, hi]` containing it, `none` when no interval does. -/
def cutAssign (x : ℚ) : List ℚ → List String → Option String
  | lo :: hi :: bs, lab :: labs =>
    if lo < x ∧ x ≤ hi then some lab else cutAssign x (hi :: bs) labs
  | _, _ => none

/-- Line 28-29: `pd.cut(train["Age"], bins=[0,12,18,35,50,80],
labels=["Child","Teen","Adult","Middle","Senior"])`. -/
def ageGroup (a : ℚ) : Option String :=
  cutAssign a [0, 12, 18, 35, 50, 80] ["Child", "Teen", "Adult", "Middle", "Senior"]

/-- Python regex class `\s` for str patterns: the 29 code points matched by
`re.compile(r'\s')` in Python 3 — ASCII whitespace, the information
separators 1C-1F, NEL, NBSP, and the Unicode space separators. -/
def isPySpace (c : Char) : Bool :=
  (decide (0x9 ≤ c.toNat) && decide (c.toNat ≤ 0xd)) ||
  (decide (0x1c ≤ c.toNat) && decide (c.toNat ≤ 0x20)) ||
  decide (c.toNat = 0x85) || decide (c.toNat = 0xa0) ||
  decide (c.toNat = 0x1680) ||
  (decide (0x2000 ≤ c.toNat) && decide (c.toNat ≤ 0x200a)) ||
  decide (c.toNat = 0x2028) || decide (c.toNat = 0x2029) ||
  decide (c.toNat = 0x202f) || decide (c.toNat = 0x205f) ||
  decide (c.toNat = 0x3000)

/-- Attempt of `\s*([^.]+)\.` at a fixed position (just past a comma), with
Python's greedy-with-backtracking semantics: the gap up to the first period
must be non-empty; the capture is the gap minus its whitespace prefix, or,
when the gap is all whitespace, just its last character (the greedy `\s*`
backtracks one step so that `[^.]+` can consume one character). -/
def captureAfterComma (rest : List Char) : Option (List Char) :=
  let gap := rest.takeWhile (fun c => c ≠ '.')
  if gap.length = 0 ∨ gap.length = rest.length then none
  else
    let t := gap.dropWhile isPySpace
    if t = [] then gap.getLast?.map (fun c => [c]) else some t

/-- `re.search(r',\s*([^.]+)\.', name)`: scan left to right; at each comma
try the rest of the pattern; first success wins; `none` when no position
matches (pandas `str.extract` then yields NaN). -/
def findTitle : List Char → Option (List Char)
  | [] => none
  | c :: rest =>
    if c = ',' then
      match captureAfterComma rest with
      | some t => some t
      | none => findTitle rest
    else findTitle rest

/-- Line 19: `train["Name"].str.extract(r',\s*([^.]+)\.')[0]`. -/
def extractTitle (s : String) : Option String :=
  (findTitle s.data).map List.asString

/-- Lines 20-26: the `title_map` dict applied by `Series.replace` — exact,
case-sensitive full-value matches; anything else passes through. -/
def title_map (t : String) : String :=
  if t = "Mlle" then "Miss"
  else if t = "Ms" then "Miss"
  else if t = "Mme" then "Mrs"
  else if t = "Lady" then "Mrs"
  else if t = "the Countess" then "Mrs"
  else if t = "Dona" then "Mrs"
  else if t = "Sir" then "Mr"
  else if t = "Jonkheer" then "Mr"
  else if t = "Don" then "Mr"
  else if t = "Col" then "Officer"
  else if t = "Major" then "Officer"
  else if t = "Capt" then "Officer"
  else if t = "Rev" then "Officer"
  else if t = "Dr" then "Officer"
  else t

/-- The whole `Title` pipeline of lines 19-26 for one name; `replace` leaves
a NaN (failed extraction) as NaN. -/
def titleOfName (n : String) : Option String :=
  (extractTitle n).map title_map

/-- The non-missing `Age` column of the raw table. -/
def ageCol (t : List RawRow) : List ℚ := nonMissing (t.map RawRow.age)

/-- The non-missing `Fare` column of the raw table. -/
def fareCol (t : List RawRow) : List ℚ := nonMissing (t.map RawRow.fare)

/-- The non-missing `Embarked` column of the raw table. -/
def embCol (t : List RawRow) : List String := nonMissing (t.map RawRow.embarked)

/-- One row of `load_data`'s body given the three dataset-wide fill values:
fill `Embarked`/`Age`/`Fare` (lines 15-17), derive `Title` (lines 19-26)
and `AgeGroup` from the filled age (lines 28-29, `pd.cut` of NaN is NaN). -/
def prepRow (em : Option String) (am fm : Option ℚ) (r : RawRow) : PRow :=
  { survived := r.survived
    pclass := r.pclass
    name := r.name
    sex := r.sex
    age := fillOpt am r.age
    fare := fillOpt fm r.fare
    embarked := fillOpt em r.embarked
    title := titleOfName r.name
    ageGroup := (fillOpt am r.age).bind ageGroup }

/-- `load_data` (lines 11-31): impute with the column mode/medians, then
derive `Title` and `AgeGroup`. -/
def prepare (t : List RawRow) : List PRow :=
  t.map (prepRow (modeStr (embCol t)) (median (ageCol t)) (median (fareCol t)))

/-- The four `st.metric` values of lines 83-95; a NaN mean (pandas mean of
an empty selection) is `none`. -/
structure Metrics where
  survivalRatePct : Option ℚ
  meanAge : Option ℚ
  meanFare : Option ℚ
  count : ℕ
  deriving DecidableEq, Repr

/-- `Series.mean()` over the non-missing values a caller passes: sum divided
by count, NaN (`none`) when there are none. -/
def meanQ (l : List ℚ) : Option ℚ :=
  if l.length = 0 then none else some (l.sum / l.length)

/-- Lines 83-95: `Survived.mean() * 100`, `Age.mean()`, `Fare.mean()`,
`len(filtered_df)` (pandas means skip NaN entries). -/
def summaryMetrics (t : List PRow) : Metrics :=
  { survivalRatePct :=
      (meanQ (t.map fun r => (r.survived : ℚ))).map (fun m => m * 100)
    meanAge := meanQ (nonMissing (t.map PRow.age))
    meanFare := meanQ (nonMissing (t.map PRow.fare))
    count := t.length }

/-- The distinct `(Sex, Pclass)` keys occurring in the table: the groups
`groupby(["Sex", "Pclass"])` forms (pandas additionally sorts the keys,
an ordering none of the claims depend on). -/
def groupKeys (t : List PRow) : List (String × ℕ) :=
  (t.map fun r => (r.sex, r.pclass)).dedup

/-- Lines 106-107: `groupby(["Sex","Pclass"])["Survived"].mean()` then
`* 100`: one output row `(sex, class, rate)` per occurring key. -/
def survivalBySexAndClass (t : List PRow) : List (String × ℕ × ℚ) :=
  (groupKeys t).map fun k =>
    (k.1, k.2,
      ((t.filter fun r => decide (r.sex = k.1 ∧ r.pclass = k.2)).map
          fun r => (r.survived : ℚ)).sum
        / (t.filter fun r => decide (r.sex = k.1 ∧ r.pclass = k.2)).length
        * 100)

/-- The eight `display_cols` of line 208, in order. -/
structure DisplayRow where
  name : String
  sex : String
  age : Option ℚ
  pclass : ℕ
  fare : Option ℚ
  embarked : Option String
  survived : ℕ
  title : Option String
  deriving DecidableEq, Repr

/-- `table_df[display_cols]` projection of one row. -/
def projectRow (r : PRow) : DisplayRow :=
  { name := r.name, sex := r.sex, age := r.age, pclass := r.pclass,
    fare := r.fare, embarked := r.embarked, survived := r.survived,
    title := r.title }

/-- Lines 201-213: restrict to survivors when the checkbox is on, project to
`display_cols`, and `head(50)`. -/
def selectDisplayRows (t : List PRow) (onlySurvivors : Bool) : List DisplayRow :=
  ((if onlySurvivors then t.filter fun r => decide (r.survived = 1) else t).map
    projectRow).take 50

/-- A survivor row for the display-rows scenario; carries its index as age. -/
def exRowS (i : ℕ) : PRow :=
  { survived := 1, pclass := 1, name := "s", sex := "male", age := some i,
    fare := some 1, embarked := some "S", title := some "Mr",
    ageGroup := some "Adult" }

/-- A non-survivor row for the display-rows scenario. -/
def exRowD (i : ℕ) : PRow :=
  { survived := 0, pclass := 3, name := "d", sex := "male", age := some i,
    fare := some 1, embarked := some "Q", title := some "Mr",
    ageGroup := some "Adult" }

end Dashboard

namespace Dashboard

/-- C6: `ageGroup` realises the half-open bins `(0,12]→Child, (12,18]→Teen,
(18,35]→Adult, (35,50]→Middle, (50,80]→Senior`; an age ≤ 0 or > 80 gets no
group; ages 12, 12.5, 80, 0 map to Child, Teen, Senior, absent. -/
theorem ageGroup_spec :
    (∀ a : ℚ,
      (ageGroup a = some "Child" ↔ 0 < a ∧ a ≤ 12) ∧
      (ageGroup a = some "Teen" ↔ 12 < a ∧ a ≤ 18) ∧
      (ageGroup a = some "Adult" ↔ 18 < a ∧ a ≤ 35) ∧
      (ageGroup a = some "Middle" ↔ 35 < a ∧ a ≤ 50) ∧
      (ageGroup a = some "Senior" ↔ 50 < a ∧ a ≤ 80) ∧
      (ageGroup a = none ↔ a ≤ 0 ∨ 80 < a)) ∧
    ageGroup 12 = some "Child" ∧ ageGroup (25/2) = some "Teen" ∧
    ageGroup 80 = some "Senior" ∧ ageGroup 0 = none := by
  have e : ∀ a : ℚ, ageGroup a =
      (if 0 < a ∧ a ≤ 12 then some "Child"
       else if 12 < a ∧ a ≤ 18 then some "Teen"
       else if 18 < a ∧ a ≤ 35 then some "Adult"
       else if 35 < a ∧ a ≤ 50 then some "Middle"
       else if 50 < a ∧ a ≤ 80 then some "Senior"
       else none) := fun a => rfl
  refine ⟨fun a => ?_, by rw [e]; norm_num, by rw [e]; norm_num,
    by rw [e]; norm_num, by rw [e]; norm_num⟩
  refine ⟨?_, ?_, ?_, ?_, ?_, ?_⟩ <;> rw [e] <;> split_ifs with h1 h2 h3 h4 h5 <;>
    first
      | exact iff_of_true rfl (by assumption)
      | exact iff_of_false (by decide) (by assumption)
      | exact iff_of_false (by decide)
          (by rintro ⟨u, v⟩ <;>
              first
                | linarith [h1.1, h1.2]
                | linarith [h2.1, h2.2]
                | linarith [h3.1, h3.2]
                | linarith [h4.1, h4.2]
                | linarith [h5.1, h5.2])
      | exact iff_of_false (by decide)
          (by rintro (hh | hh) <;>
              first
                | linarith [h1.1, h1.2]
                | linarith [h2.1, h2.2]
                | linarith [h3.1, h3.2]
                | linarith [h4.1, h4.2]
                | linarith [h5.1, h5.2])
      | exact iff_of_true rfl (by
          by_cases ha : a ≤ 0
          · exact Or.inl ha
          · push_neg at ha h1 h2 h3 h4 h5
            exact Or.inr (h5 (h4 (h3 (h2 (h1 ha))))))

theorem rowMatches_iff (c : Criteria) (r : PRow) :
    rowMatches c r = true ↔
      r.pclass ∈ c.classes ∧ r.sex ∈ c.sexes ∧
      (∃ a, r.age = some a ∧ c.minAge ≤ a ∧ a ≤ c.maxAge) ∧
      (∃ e, r.embarked = some e ∧ e ∈ c.ports) := by
  unfold rowMatches
  cases hA : r.age <;> cases hE : r.embarked <;>
    simp [List.elem_iff, and_assoc]

/-- C1: `applyFilters` keeps exactly the rows satisfying the conjunction of
the four criteria (class membership, sex membership, inclusive age range,
port membership), preserves the base table's order (sublist), and any empty
criterion set among classes/sexes/ports gives an empty result. -/
theorem applyFilters_spec (t : List PRow) (c : Criteria) :
    (∀ r, r ∈ applyFilters t c ↔
      r ∈ t ∧ r.pclass ∈ c.classes ∧ r.sex ∈ c.sexes ∧
      (∃ a, r.age = some a ∧ c.minAge ≤ a ∧ a ≤ c.maxAge) ∧
      (∃ e, r.embarked = some e ∧ e ∈ c.ports)) ∧
    (applyFilters t c).Sublist t ∧
    (c.classes = [] ∨ c.sexes = [] ∨ c.ports = [] → applyFilters t c = []) := by
  refine ⟨fun r => ?_, List.filter_sublist t, fun h => ?_⟩
  · rw [applyFilters, List.mem_filter, rowMatches_iff]
  · rw [applyFilters, List.filter_eq_nil_iff]
    intro r _ hr
    rw [rowMatches_iff] at hr
    obtain ⟨h1, h2, ⟨a, -, -, -⟩, ⟨e, -, h5⟩⟩ := hr
    rcases h with h | h | h <;> simp [h] at h1 h2 h5

/-- Witness for C1 at a concrete table and criteria with an empty class set. -/
theorem applyFilters_spec_witness :
    applyFilters
      [{ survived := 1, pclass := 1, name := "A", sex := "male",
         age := some 30, fare := some 10, embarked := some "S",
         title := some "Mr", ageGroup := some "Adult" }]
      { classes := [], sexes := ["male"], minAge := 0, maxAge := 80,
        ports := ["S"] } = [] :=
  (applyFilters_spec _ _).2.2 (Or.inl rfl)

theorem pyCharListLt_iff (as bs : List Char) :
    pyCharListLt as bs = true ↔ List.Lex (· < ·) as bs := by
  induction as generalizing bs with
  | nil =>
    cases bs with
    | nil => simp [pyCharListLt]
    | cons b bs => simp [pyCharListLt]; exact List.Lex.nil
  | cons a as ih =>
    cases bs with
    | nil =>
      simp only [pyCharListLt, Bool.false_eq_true, false_iff]
      exact List.Lex.not_nil_right _ _
    | cons b bs =>
      rcases lt_trichotomy a b with hab | hab | hab
      · simp only [pyCharListLt, if_pos hab, true_iff]
        exact List.Lex.rel hab
      · subst hab
        simp only [pyCharListLt, if_neg (lt_irrefl a), ih]
        exact (List.Lex.cons_iff (r := (· < ·))).symm
      · simp only [pyCharListLt, if_neg (asymm hab), if_pos hab,
          Bool.false_eq_true, false_iff]
        intro hlex
        cases hlex with
        | rel h => exact absurd h (asymm hab)
        | cons h => exact absurd hab (lt_irrefl a)

theorem pyStrLt_iff (a b : String) : pyStrLt a b = true ↔ a < b := by
  rw [pyStrLt, pyCharListLt_iff, String.lt_iff_toList_lt]
  exact Iff.rfl

theorem pickMode_spec (cnt : String → ℕ) (l : List String) (h : l ≠ []) :
    ∃ m, pickMode cnt l = some m ∧ m ∈ l ∧
      ∀ v ∈ l, cnt v ≤ cnt m ∧ (cnt v = cnt m → m ≤ v) := by
  induction l with
  | nil => exact absurd rfl h
  | cons v vs ih =>
    rcases eq_or_ne vs [] with rfl | hvs
    · refine ⟨v, rfl, List.mem_cons_self v [], fun u hu => ?_⟩
      rcases List.mem_cons.mp hu with rfl | hu
      · exact ⟨le_refl _, fun _ => le_refl _⟩
      · exact absurd hu (List.not_mem_nil u)
    · obtain ⟨b, hb, hbm, hbs⟩ := ih hvs
      have hunf : pickMode cnt (v :: vs)
          = if cnt b < cnt v ∨ (cnt v = cnt b ∧ pyStrLt v b) then some v
            else some b := by
        simp [pickMode, hb]
      by_cases hc : cnt b < cnt v ∨ (cnt v = cnt b ∧ pyStrLt v b)
      · rw [if_pos hc] at hunf
        refine ⟨v, hunf, List.mem_cons_self v vs, fun u hu => ?_⟩
        rcases List.mem_cons.mp hu with rfl | hu
        · exact ⟨le_refl _, fun _ => le_refl _⟩
        · obtain ⟨h1, h2⟩ := hbs u hu
          rcases hc with hc | ⟨hc1, hc2⟩
          · exact ⟨h1.trans hc.le, fun he => absurd hc (by omega)⟩
          · refine ⟨by omega, fun he => ?_⟩
            exact le_trans (le_of_lt ((pyStrLt_iff v b).mp hc2))
              (h2 (he.trans hc1))
      · rw [if_neg hc] at hunf
        push_neg at hc
        refine ⟨b, hunf, List.mem_cons_of_mem v hbm, fun u hu => ?_⟩
        rcases List.mem_cons.mp hu with rfl | hu
        · refine ⟨hc.1, fun he => ?_⟩
          exact le_of_not_lt fun hlt => hc.2 he ((pyStrLt_iff u b).mpr hlt)
        · exact hbs u hu

theorem modeStr_spec (l : List String) (h : l ≠ []) :
    ∃ m, modeStr l = some m ∧ m ∈ l ∧
      ∀ v ∈ l, l.count v ≤ l.count m ∧ (l.count v = l.count m → m ≤ v) := by
  have hd : l.dedup ≠ [] := fun hh => h (by simpa using hh)
  obtain ⟨m, hm, hmm, hms⟩ := pickMode_spec (fun v => l.count v) l.dedup hd
  exact ⟨m, hm, List.mem_dedup.mp hmm, fun v hv => hms v (List.mem_dedup.mpr hv)⟩

theorem median_isSome (l : List ℚ) (h : l ≠ []) : (median l).isSome := by
  rw [median, if_neg (by simpa using h)]
  dsimp only
  split_ifs <;> rfl

/-- C2: given each raw column has at least one non-missing value, after
preparation `age`, `fare` and `embarked` are never missing; a missing value
is replaced by the column's median (`Age`, `Fare`) or mode (`Embarked`) and
a present value is kept; the mode is a most frequent value of the column
and, among equally frequent values, the lowest in sort order. -/
theorem prepare_spec (t : List RawRow)
    (ha : ageCol t ≠ []) (hf : fareCol t ≠ []) (he : embCol t ≠ []) :
    (∀ r ∈ prepare t, r.age.isSome ∧ r.fare.isSome ∧ r.embarked.isSome) ∧
    (∀ r ∈ t,
      (prepRow (modeStr (embCol t)) (median (ageCol t)) (median (fareCol t)) r).age
        = (if r.age = none then median (ageCol t) else r.age) ∧
      (prepRow (modeStr (embCol t)) (median (ageCol t)) (median (fareCol t)) r).fare
        = (if r.fare = none then median (fareCol t) else r.fare) ∧
      (prepRow (modeStr (embCol t)) (median (ageCol t)) (median (fareCol t)) r).embarked
        = (if r.embarked = none then modeStr (embCol t) else r.embarked)) ∧
    (∃ m, modeStr (embCol t) = some m ∧ m ∈ embCol t ∧
      ∀ v ∈ embCol t, (embCol t).count v ≤ (embCol t).count m ∧
        ((embCol t).count v = (embCol t).count m → m ≤ v)) := by
  refine ⟨?_, ?_, modeStr_spec _ he⟩
  · intro r hr
    obtain ⟨r0, hr0, rfl⟩ := List.mem_map.mp hr
    refine ⟨?_, ?_, ?_⟩
    · show (fillOpt (median (ageCol t)) r0.age).isSome
      cases r0.age
      · exact median_isSome _ ha
      · rfl
    · show (fillOpt (median (fareCol t)) r0.fare).isSome
      cases r0.fare
      · exact median_isSome _ hf
      · rfl
    · show (fillOpt (modeStr (embCol t)) r0.embarked).isSome
      cases r0.embarked
      · obtain ⟨m, hm, -, -⟩ := modeStr_spec _ he
        show (modeStr (embCol t)).isSome
        rw [hm]; rfl
      · rfl
  · intro r hr
    refine ⟨?_, ?_, ?_⟩ <;>
      [cases hx : r.age; cases hx : r.fare; cases hx : r.embarked] <;>
      simp [prepRow, fillOpt, hx]

/-- Witness for C2 at a 3-row raw table with one missing value per column. -/
theorem prepare_spec_witness :
    ((prepare
      [{ survived := 1, pclass := 1, name := "Allen, Mr. X", sex := "male",
         age := none, fare := some 10, embarked := some "S" },
       { survived := 0, pclass := 3, name := "B, Mrs. Y", sex := "female",
         age := some 20, fare := none, embarked := none },
       { survived := 1, pclass := 2, name := "C, Miss. Z", sex := "female",
         age := some 40, fare := some 30, embarked := some "C" }]).all
      fun r => r.age.isSome && r.fare.isSome && r.embarked.isSome) = true := by
  rw [List.all_eq_true]
  intro r hr
  have h := (prepare_spec _ (by decide) (by decide) (by decide)).1 r hr
  simp [h.1, h.2.1, h.2.2]

theorem nonMissing_length_eq {α : Type} (l : List (Option α))
    (h : ∀ x ∈ l, x.isSome) : (nonMissing l).length = l.length := by
  induction l with
  | nil => rfl
  | cons x l ih =>
    cases x with
    | none => simpa using h none (List.mem_cons_self _ _)
    | some a =>
      have h2 := ih fun y hy => h y (List.mem_cons_of_mem _ hy)
      simp [nonMissing, List.filterMap_cons] at h2 ⊢
      exact h2

/-- C3: on a non-empty table all of whose ages and fares are present (as
the dashboard's filtered tables are), the summary metrics are
100·mean(survived), mean(age), mean(fare) — column sums divided by the row
count — and the row count. -/
theorem summaryMetrics_spec (t : List PRow) (h : t ≠ [])
    (hage : ∀ r ∈ t, r.age.isSome) (hfare : ∀ r ∈ t, r.fare.isSome) :
    (summaryMetrics t).survivalRatePct
        = some (100 * ((t.map fun r => (r.survived : ℚ)).sum / t.length)) ∧
    (summaryMetrics t).meanAge
        = some ((nonMissing (t.map PRow.age)).sum / t.length) ∧
    (summaryMetrics t).meanFare
        = some ((nonMissing (t.map PRow.fare)).sum / t.length) ∧
    (summaryMetrics t).count = t.length := by
  have hlen : t.length ≠ 0 := by simpa using h
  have hA : (nonMissing (t.map PRow.age)).length = t.length := by
    rw [nonMissing_length_eq _ fun x hx => ?_, List.length_map]
    obtain ⟨r, hr, rfl⟩ := List.mem_map.mp hx
    exact hage r hr
  have hF : (nonMissing (t.map PRow.fare)).length = t.length := by
    rw [nonMissing_length_eq _ fun x hx => ?_, List.length_map]
    obtain ⟨r, hr, rfl⟩ := List.mem_map.mp hx
    exact hfare r hr
  refine ⟨?_, ?_, ?_, rfl⟩
  · simp only [summaryMetrics, meanQ, List.length_map]
    rw [if_neg hlen]
    simp [mul_comm]
  · simp only [summaryMetrics, meanQ]
    rw [if_neg (by rw [hA]; exact hlen), hA]
  · simp only [summaryMetrics, meanQ]
    rw [if_neg (by rw [hF]; exact hlen), hF]

/-- Witness for C3 at the spec's 3-row example: survival rate
200/3 ≈ 66.67 and mean age 40. -/
theorem summaryMetrics_spec_witness :
    (summaryMetrics
      [{ survived := 1, pclass := 1, name := "a", sex := "male",
         age := some 10, fare := some 5, embarked := some "S",
         title := some "Mr", ageGroup := some "Child" },
       { survived := 0, pclass := 2, name := "b", sex := "female",
         age := some 40, fare := some 15, embarked := some "C",
         title := some "Mrs", ageGroup := some "Middle" },
       { survived := 1, pclass := 3, name := "c", sex := "male",
         age := some 70, fare := some 25, embarked := some "Q",
         title := some "Mr", ageGroup := some "Senior" }]).survivalRatePct
      = some (200/3) ∧
    (summaryMetrics
      [{ survived := 1, pclass := 1, name := "a", sex := "male",
         age := some 10, fare := some 5, embarked := some "S",
         title := some "Mr", ageGroup := some "Child" },
       { survived := 0, pclass := 2, name := "b", sex := "female",
         age := some 40, fare := some 15, embarked := some "C",
         title := some "Mrs", ageGroup := some "Middle" },
       { survived := 1, pclass := 3, name := "c", sex := "male",
         age := some 70, fare := some 25, embarked := some "Q",
         title := some "Mr", ageGroup := some "Senior" }]).meanAge
      = some 40 := by
  have h := summaryMetrics_spec
    [{ survived := 1, pclass := 1, name := "a", sex := "male",
       age := some 10, fare := some 5, embarked := some "S",
       title := some "Mr", ageGroup := some "Child" },
     { survived := 0, pclass := 2, name := "b", sex := "female",
       age := some 40, fare := some 15, embarked := some "C",
       title := some "Mrs", ageGroup := some "Middle" },
     { survived := 1, pclass := 3, name := "c", sex := "male",
       age := some 70, fare := some 25, embarked := some "Q",
       title := some "Mr", ageGroup := some "Senior" }]
    (by decide) (by decide) (by decide)
  refine ⟨h.1.trans ?_, h.2.1.trans ?_⟩ <;>
    · simp [nonMissing]
      norm_num

/-- C4: on the empty filtered table all three rate/mean metrics are `none`
("no data" — NaN in the source, not a numeric default such as zero) and the
count is 0; `summaryMetrics` is total, so the state raises no error. -/
theorem summaryMetrics_empty :
    summaryMetrics [] =
      { survivalRatePct := none, meanAge := none, meanFare := none,
        count := 0 } := rfl

/-- C9: the grouped survival table has pairwise-distinct keys, contains a
key iff some row of the filtered table carries it (absent `(sex, class)`
combinations are omitted, never zero-filled), and each row's value is 100
times that group's mean survival. -/
theorem survivalBySexAndClass_spec (t : List PRow) :
    ((survivalBySexAndClass t).map fun e => (e.1, e.2.1)).Nodup ∧
    (∀ s c, (∃ q, (s, c, q) ∈ survivalBySexAndClass t) ↔
      ∃ r ∈ t, r.sex = s ∧ r.pclass = c) ∧
    (∀ e ∈ survivalBySexAndClass t,
      e.2.2 = ((t.filter fun r => decide (r.sex = e.1 ∧ r.pclass = e.2.1)).map
            fun r => (r.survived : ℚ)).sum
          / (t.filter fun r => decide (r.sex = e.1 ∧ r.pclass = e.2.1)).length
          * 100) := by
  refine ⟨?_, ?_, ?_⟩
  · have he : ((survivalBySexAndClass t).map fun e => (e.1, e.2.1))
        = groupKeys t := by
      rw [survivalBySexAndClass, List.map_map]
      have hfe : ((fun e : String × ℕ × ℚ => (e.1, e.2.1)) ∘
          (fun k : String × ℕ =>
            (k.1, k.2,
              ((t.filter fun r => decide (r.sex = k.1 ∧ r.pclass = k.2)).map
                  fun r => (r.survived : ℚ)).sum
                / (t.filter fun r =>
                    decide (r.sex = k.1 ∧ r.pclass = k.2)).length
                * 100))) = id := funext fun k => rfl
      rw [hfe, List.map_id]
    rw [he]
    exact List.nodup_dedup _
  · intro s c
    constructor
    · rintro ⟨q, hq⟩
      obtain ⟨k, hk, hkeq⟩ := List.mem_map.mp hq
      have hk1 : k.1 = s := congrArg Prod.fst hkeq
      have hk2 : k.2 = c := congrArg (fun p => p.2.1) hkeq
      obtain ⟨r, hr, hre⟩ := List.mem_map.mp (List.mem_dedup.mp hk)
      refine ⟨r, hr, ?_, ?_⟩
      · rw [← hk1, ← hre]
      · rw [← hk2, ← hre]
    · rintro ⟨r, hr, hs, hc⟩
      refine ⟨_, List.mem_map.mpr ⟨(s, c), ?_, rfl⟩⟩
      exact List.mem_dedup.mpr (List.mem_map.mpr ⟨r, hr, by rw [hs, hc]⟩)
  · intro e he
    obtain ⟨k, hk, rfl⟩ := List.mem_map.mp he
    rfl

/-- C7: with the survivors toggle on, the display is the projection of the
first 50 rows of the survivors-restricted table in original order; every
displayed row is a survivor; and on a table of 60 survivors and 5
non-survivors (survivors 0-29, then 5 non-survivors, then survivors 30-59)
it is exactly the first 50 survivors in original order. -/
theorem selectDisplayRows_survivors (t : List PRow) :
    selectDisplayRows t true
      = ((t.filter fun r => decide (r.survived = 1)).take 50).map projectRow ∧
    (∀ d ∈ selectDisplayRows t true, d.survived = 1) ∧
    selectDisplayRows
        ((List.range 30).map exRowS ++ (List.range 5).map exRowD
          ++ (List.range 30).map fun i => exRowS (30 + i)) true
      = ((List.range 30).map fun i => projectRow (exRowS i))
        ++ ((List.range 20).map fun i => projectRow (exRowS (30 + i))) := by
  refine ⟨?_, ?_, ?_⟩
  · rw [selectDisplayRows]
    simp [List.map_take]
  · intro d hd
    have hd2 : d ∈ (t.filter fun r => decide (r.survived = 1)).map projectRow :=
      List.take_subset _ _ (by simpa [selectDisplayRows] using hd)
    obtain ⟨r, hr, rfl⟩ := List.mem_map.mp hd2
    have := List.of_mem_filter hr
    simpa [projectRow] using this
  · have hfilt : ∀ (f : ℕ → PRow), (∀ i, (f i).survived = 1) → ∀ n,
        ((List.range n).map f).filter (fun r => decide (r.survived = 1))
          = (List.range n).map f := by
      intro f hf n
      rw [List.filter_map]
      have hcomp : ((fun r => decide (r.survived = 1)) ∘ f) = fun _ => true :=
        funext fun i => by simp [hf i]
      rw [hcomp, List.filter_true]
    have hfilt0 : ((List.range 5).map exRowD).filter
        (fun r => decide (r.survived = 1)) = [] := by
      rw [List.filter_map]
      have hcomp : ((fun r => decide (r.survived = 1)) ∘ exRowD)
          = fun _ => false := funext fun i => by simp [exRowD]
      rw [hcomp, List.filter_false, List.map_nil]
    rw [selectDisplayRows, if_pos rfl, List.filter_append, List.filter_append,
      hfilt exRowS (fun i => rfl) 30, hfilt0,
      hfilt (fun i => exRowS (30 + i)) (fun i => rfl) 30,
      List.append_nil, List.map_append, List.take_append_eq_append_take]
    simp [List.map_map, Function.comp_def, ← List.map_take, List.take_range,
      List.take_of_length_le]

/-- Witness for C7 at a one-row table: the displayed row is a survivor. -/
theorem selectDisplayRows_survivors_witness :
    (projectRow (exRowS 0)).survived = 1 :=
  (selectDisplayRows_survivors [exRowS 0]).2.1 (projectRow (exRowS 0))
    (by decide)

/-- Witness for C9 at a one-row table: the row's `(sex, class)` key appears
in the grouped output. -/
theorem survivalBySexAndClass_spec_witness :
    ∃ q, ("male", 1, q) ∈ survivalBySexAndClass [exRowS 0] :=
  ((survivalBySexAndClass_spec [exRowS 0]).2.1 "male" 1).mpr
    ⟨exRowS 0, List.mem_cons_self _ _, rfl, rfl⟩

/-- C10: with the survivors toggle off, the display is the projection of
the first 50 rows of the filtered table in original order — never more than
50 rows — and the whole table when it has at most 50 rows. -/
theorem selectDisplayRows_all (t : List PRow) :
    selectDisplayRows t false = (t.take 50).map projectRow ∧
    (selectDisplayRows t false).length ≤ 50 ∧
    (t.length ≤ 50 → selectDisplayRows t false = t.map projectRow) := by
  refine ⟨?_, ?_, fun hle => ?_⟩
  · rw [selectDisplayRows]
    simp [List.map_take]
  · simp [selectDisplayRows]
  · rw [selectDisplayRows]
    simp only [if_neg Bool.false_ne_true]
    exact List.take_of_length_le (by simpa using hle)

/-- Witness for C10's at-most-50 clause at a one-row table. -/
theorem selectDisplayRows_all_witness :
    selectDisplayRows [exRowS 0] false = [projectRow (exRowS 0)] :=
  (selectDisplayRows_all [exRowS 0]).2.2 (by decide)

/-- C8: `applyFilters` is idempotent: filtering an already-filtered table
with the same criteria returns the same list. -/
theorem applyFilters_idem (t : List PRow) (c : Criteria) :
    applyFilters (applyFilters t c) c = applyFilters t c := by
  unfold applyFilters
  rw [List.filter_filter]
  exact List.filter_congr fun r _ => by cases rowMatches c r <;> rfl

end Dashboard
